import Mathlib

/-!
Shallow embedding of the download engine of a BitTorrent leech client
(Rust sources: `src/peer.rs`, `src/main.rs`).  Bytes are modelled as `Nat`
(values `< 256` on the wire), byte strings as `List Nat`, and the fallible
Rust functions as `Except`/`Option`-returning Lean functions.  Each
definition mirrors one Rust item, named after it where Lean allows.
-/

namespace BitTorrent

/-- `pub const BLOCK_MAX: usize = 1 << 14;` (main.rs:23). -/
def BLOCK_MAX : Nat := 1 <<< 14

/-- `const MAX: usize = 2 << 16;` (peer.rs:286), the frame-length cap. -/
def MAX : Nat := 2 <<< 16

/-- `u32::from_be_bytes` on a 4-byte big-endian array (general fold form). -/
def fromBE32 (l : List Nat) : Nat :=
  l.foldl (fun acc b => acc * 256 + b) 0

/-- `u32::to_be_bytes` of `n` (truncated to 32 bits as the cast does). -/
def toBE32 (n : Nat) : List Nat :=
  [n / 2 ^ 24 % 256, n / 2 ^ 16 % 256, n / 2 ^ 8 % 256, n % 256]

/-- `enum MessageTag` (peer.rs:197-209). -/
inductive MessageTag where
  | Choke
  | Unchoke
  | Interested
  | NotInterested
  | Have
  | Bitfield
  | Request
  | Piece
  | Cancel
deriving DecidableEq, Repr

/-- The `repr(u8)` discriminant of a tag (`item.tag as u8`). -/
def MessageTag.toByte : MessageTag → Nat
  | .Choke => 0
  | .Unchoke => 1
  | .Interested => 2
  | .NotInterested => 3
  | .Have => 4
  | .Bitfield => 5
  | .Request => 6
  | .Piece => 7
  | .Cancel => 8

/-- The `match src[4]` tag dispatch of the decoder (peer.rs:329-345). -/
def tagOfByte : Nat → Option MessageTag
  | 0 => some .Choke
  | 1 => some .Unchoke
  | 2 => some .Interested
  | 3 => some .NotInterested
  | 4 => some .Have
  | 5 => some .Bitfield
  | 6 => some .Request
  | 7 => some .Piece
  | 8 => some .Cancel
  | _ => none

/-- `struct Message { tag, payload }` (peer.rs:278-282). -/
structure Message where
  tag : MessageTag
  payload : List Nat
deriving DecidableEq, Repr

/-- Result of one `MessageFramer::decode` call on a buffer: `Ok(None)`
carries the (possibly keep-alive-trimmed) buffer left behind, `Ok(Some)`
carries the decoded message and the bytes remaining after the frame, and
`Err` is the `std::io::Error` message. -/
inductive DecRes where
  | needMore (rest : List Nat)
  | msg (m : Message) (rest : List Nat)
  | err (e : String)
deriving DecidableEq, Repr

/-- `MessageFramer::decode` (peer.rs:293-356).  The buffer is the byte
list; `src.advance(k)` is `List.drop k`; the keep-alive branch re-enters
the decoder on the shortened buffer exactly as `self.decode(src)` does. -/
def decode (src : List Nat) : DecRes :=
  if src.length < 4 then .needMore src
  else
    let length := fromBE32 (src.take 4)
    if length = 0 then decode (src.drop 4)
    else if src.length < 5 then .needMore src
    else if length > MAX then .err "message too long"
    else if src.length < length + 4 then .needMore src
    else
      match tagOfByte (src.getD 4 0) with
      | none => .err "invalid message tag"
      | some tag =>
        let data := if src.length > 5 then (src.drop 5).take (length - 1) else []
        .msg ⟨tag, data⟩ (src.drop (4 + length))
termination_by src.length
decreasing_by simp_all; omega

/-- `MessageFramer::encode` (peer.rs:362-381): length prefix
`payload.len() + 1`, tag byte, payload; oversize payloads are rejected. -/
def encode (item : Message) : Except String (List Nat) :=
  if item.payload.length + 1 > MAX then
    .error "Frame is too large."
  else
    .ok (toBE32 (item.payload.length + 1) ++ item.tag.toByte :: item.payload)

/-- `u8::rotate_right` on an 8-bit value: rotate `x` right by `k` bits. -/
def rotateRight8 (x k : Nat) : Nat :=
  ((x % 256) >>> (k % 8)) ||| ((x <<< (8 - k % 8)) % 256)

/-- `struct Bitfield { payload: Vec<u8> }` (peer.rs:384-386). -/
structure Bitfield where
  payload : List Nat
deriving DecidableEq, Repr

/-- `Bitfield::has_piece` (peer.rs:389-397): byte `piece_i / 8`, mask
`1u8.rotate_right(bit_i + 1)`; out-of-range bytes read as "no piece". -/
def Bitfield.has_piece (b : Bitfield) (piece_i : Nat) : Bool :=
  let byte_i := piece_i / 8
  let bit_i := piece_i % 8
  match b.payload.get? byte_i with
  | none => false
  | some byte => byte &&& rotateRight8 1 (bit_i + 1) != 0

/-- `Bitfield::from_payload` (peer.rs:410-412). -/
def Bitfield.from_payload (payload : List Nat) : Bitfield := ⟨payload⟩

/-- A decoded `&Piece` view: the fixed 4-byte `index` and `begin` headers
and the trailing `block` slice (peer.rs:211-216). -/
structure PieceView where
  index : List Nat
  begin : List Nat
  block : List Nat
deriving DecidableEq, Repr

/-- `Piece::PIECE_LEAD = size_of::<Piece<()>>()` = 8 (peer.rs:231). -/
def PIECE_LEAD : Nat := 8

/-- `Piece::ref_from_bytes` (peer.rs:233-248): `None` on inputs shorter
than the 8-byte lead, otherwise the view whose `block` is the trailing
`data.len() - 8` bytes. -/
def Piece.ref_from_bytes (data : List Nat) : Option PieceView :=
  if data.length < PIECE_LEAD then none
  else some ⟨data.take 4, (data.drop 4).take 4, data.drop 8⟩

/-- `Piece::index` (peer.rs:219-221). -/
def PieceView.indexVal (p : PieceView) : Nat := fromBE32 p.index

/-- `Piece::begin` (peer.rs:223-225). -/
def PieceView.beginVal (p : PieceView) : Nat := fromBE32 p.begin

/-- `struct Handshake` (peer.rs:250-257), its five fields as received
from the peer (`length` one byte, the rest byte strings). -/
structure Handshake where
  length : Nat
  bittorrent : List Nat
  resverd : List Nat
  info_hash : List Nat
  peer_id : List Nat
deriving DecidableEq, Repr

/-- The ASCII bytes of `b"BitTorrent protocol"`. -/
def protocolName : List Nat :=
  [66, 105, 116, 84, 111, 114, 114, 101, 110, 116, 32, 112, 114, 111, 116,
   111, 99, 111, 108]

/-- The session state `Peer::new` returns (peer.rs:46-51): the stored
bitfield payload and the `choked` flag. -/
structure PeerState where
  bitfield : Bitfield
  choked : Bool
deriving DecidableEq, Repr

/-- The validation and construction steps of `Peer::new` (peer.rs:21-52)
after the network exchange: `hs` is the 68-byte handshake read back from
the peer (split into its fields) and `firstFrame` the first decoded
message.  `ensure!` failures become `Except.error`. -/
def Peer.new (hs : Handshake) (firstFrame : Message) : Except String PeerState :=
  if hs.length ≠ 19 then .error "handshake.length == 19"
  else if hs.bittorrent ≠ protocolName then .error "handshake.bittorrent == protocol"
  else if firstFrame.tag ≠ MessageTag.Bitfield then .error "bitfield.tag == MessageTag.Bitfield"
  else .ok ⟨Bitfield.from_payload firstFrame.payload, true⟩

/-- The per-block size computation shared by `Peer::participate`
(peer.rs:117-126) and `Command::DownloadPiece` (main.rs:290-299). -/
def block_size (block nblocks piece_size : Nat) : Nat :=
  if block = nblocks - 1 then
    let md := piece_size % BLOCK_MAX
    if md = 0 then BLOCK_MAX else md
  else BLOCK_MAX

/-- `let nblocks = (piece_size + (BLOCK_MAX - 1)) / BLOCK_MAX` (main.rs:287). -/
def nblocks (piece_size : Nat) : Nat :=
  (piece_size + (BLOCK_MAX - 1)) / BLOCK_MAX

/-- The per-piece size computation of `Command::DownloadPiece`
(main.rs:276-285): `length` is the torrent's total length, `plength` its
piece length, `npieces` the number of piece hashes. -/
def piece_size (piece_i npieces length plength : Nat) : Nat :=
  if piece_i = npieces - 1 then
    let md := length % plength
    if md = 0 then plength else md
  else plength

/-- Outcome of one message in the choked-wait loop of `Peer::participate`
(peer.rs:79-112): leave the loop unchoked, stay choked and read on, abort
with a protocol error (`anyhow::bail!`), or hit a failed `assert!`. -/
inductive ChokedStep where
  | unchoked
  | stayChoked
  | protoErr (e : String)
  | panicked (e : String)
deriving DecidableEq, Repr

/-- The `match unchoke.tag` of the choked-wait loop (peer.rs:86-111). -/
def chokedStep (m : Message) : ChokedStep :=
  match m.tag with
  | .Unchoke =>
    if m.payload = [] then .unchoked else .panicked "unchoke.payload.is_empty()"
  | .Have => .stayChoked
  | .Interested | .NotInterested | .Request | .Cancel => .stayChoked
  | .Piece => .stayChoked
  | .Choke => .protoErr "peer sent unchoke while unchoked"
  | .Bitfield => .protoErr "peer sent bitfield after handshake has been completed"

/-- Result of running the choked-wait loop over a list of incoming
messages: the messages left after the `Unchoke`, an aborted session, a
failed assertion, or the stream running dry while still choked. -/
inductive WaitRes where
  | ok (rest : List Message)
  | err (e : String)
  | panic (e : String)
  | starved
deriving DecidableEq, Repr

/-- The `while self.choked` loop (peer.rs:79-112) as a fold over the
incoming message list. -/
def chokedWait : List Message → WaitRes
  | [] => .starved
  | m :: rest =>
    match chokedStep m with
    | .unchoked => .ok rest
    | .stayChoked => chokedWait rest
    | .protoErr e => .err e
    | .panicked e => .panic e

/-- Outcome of one message in the inner request/response loop of
`Peer::participate` (peer.rs:143-188). -/
inductive InnerStep where
  | choked
  | gotBlock
  | keepWaiting
  | protoErr (e : String)
  | panicked (e : String)
deriving DecidableEq, Repr

/-- The `match msg.tag` of the inner receive loop (peer.rs:151-187), for
an outstanding `Request` on `block` of piece `piece_i` with expected
`bsize` block bytes. -/
def innerStep (piece_i block bsize : Nat) (m : Message) : InnerStep :=
  match m.tag with
  | .Choke =>
    if m.payload = [] then .choked else .panicked "msg.payload.is_empty()"
  | .Piece =>
    match Piece.ref_from_bytes m.payload with
    | none => .panicked "always get all Piece response fields from peer"
    | some piece =>
      if piece.indexVal ≠ piece_i ∨ piece.beginVal ≠ block * BLOCK_MAX then
        .keepWaiting
      else if piece.block.length = bsize then .gotBlock
      else .panicked "piece.block().len() == block_size"
  | .Have => .keepWaiting
  | .Interested | .NotInterested | .Request | .Cancel => .keepWaiting
  | .Unchoke => .protoErr "peer sent unchoke while unchoked"
  | .Bitfield => .protoErr "peer sent bitfield after handshake has been completed"

/-- Result of running the inner receive loop: the matching `Piece`
message (to be sent on `finish`) with the messages left behind; a `Choke`
(choked := true, requeue the block, `continue 'task`); an abort; a failed
assertion; or the stream running dry mid-request. -/
inductive InnerRes where
  | finished (m : Message) (rest : List Message)
  | requeued (rest : List Message)
  | err (e : String)
  | panic (e : String)
  | starved
deriving DecidableEq, Repr

/-- The inner `loop` of `Peer::participate` (peer.rs:143-188) as a fold
over the incoming message list. -/
def innerLoop (piece_i block bsize : Nat) : List Message → InnerRes
  | [] => .starved
  | m :: rest =>
    match innerStep piece_i block bsize m with
    | .keepWaiting => innerLoop piece_i block bsize rest
    | .choked => .requeued rest
    | .gotBlock => .finished m rest
    | .protoErr e => .err e
    | .panicked e => .panic e

/-- The channel traffic `participate` produces: blocks sent back on the
`submit` (requeue) channel and `Piece` messages sent on `finish`. -/
structure Effects where
  submit : List Nat
  finish : List Message
deriving DecidableEq, Repr

/-- Overall result of the `'task` loop. -/
inductive TaskRes where
  | ok (eff : Effects)
  | err (e : String)
  | panic (e : String)
  | starved
deriving DecidableEq, Repr

/-- The `'task: loop` of `Peer::participate` (peer.rs:78-191): `choked`
is the session flag on entry, `tasks` the successive values the `tasks`
channel will yield before closing, `msgs` the incoming message stream,
and `eff` the channel traffic produced so far. -/
def taskLoop (piece_i ps nb : Nat) :
    Bool → List Nat → List Message → Effects → TaskRes
  | choked, tasks, msgs, eff =>
    let w := if choked then chokedWait msgs else .ok msgs
    match w with
    | .err e => .err e
    | .panic e => .panic e
    | .starved => .starved
    | .ok msgs₁ =>
      match tasks with
      | [] => .ok eff
      | block :: tasks₁ =>
        let bsize := block_size block nb ps
        match innerLoop piece_i block bsize msgs₁ with
        | .finished m rest =>
          taskLoop piece_i ps nb false tasks₁ rest ⟨eff.submit, eff.finish ++ [m]⟩
        | .requeued rest =>
          taskLoop piece_i ps nb true tasks₁ rest ⟨eff.submit ++ [block], eff.finish⟩
        | .err e => .err e
        | .panic e => .panic e
        | .starved => .starved

/-! ## Helper lemmas -/

/-- Numeric value of `BLOCK_MAX`. -/
theorem BLOCK_MAX_eq : BLOCK_MAX = 16384 := rfl

/-- Numeric value of the frame-length cap `MAX` (`2 << 16` = `2^17`). -/
theorem MAX_eq : MAX = 131072 := rfl

/-- `toBE32` always yields 4 bytes. -/
theorem toBE32_length (n : Nat) : (toBE32 n).length = 4 := rfl

/-- Big-endian 32-bit serialisation round-trips below `2^32`. -/
theorem fromBE32_toBE32 (n : Nat) (h : n < 2 ^ 32) : fromBE32 (toBE32 n) = n := by
  simp [fromBE32, toBE32, List.foldl]
  omega

/-- The decoder's tag dispatch inverts the encoder's tag byte. -/
theorem tagOfByte_toByte (t : MessageTag) : tagOfByte t.toByte = some t := by
  cases t <;> rfl

/-- `1u8.rotate_right(b + 1)` is the MSB-first mask for bit `b` of a byte. -/
theorem rotateRight8_one (b : Nat) (hb : b < 8) :
    rotateRight8 1 (b + 1) = 1 <<< (7 - b) := by
  interval_cases b <;> rfl

/-- Testing a byte against a single-bit mask is reading that bit. -/
theorem and_shift_bit (x m : Nat) :
    (x &&& (1 <<< m) != 0) = ((x >>> m) &&& 1 != 0) := by
  simp only [Nat.shiftLeft_eq, one_mul, Nat.and_two_pow, Nat.and_one_is_mod,
    Nat.shiftRight_eq_div_pow, Nat.testBit_to_div_mod]
  rcases Nat.mod_two_eq_zero_or_one (x / 2 ^ m) with h | h <;>
    simp [h, pow_ne_zero]

/-! ## Claim theorems -/

/-- Claim C1 (code bug): in the choked-wait loop of `Peer::participate`, an
`Unchoke` does leave the choked state, but a `Choke` received while already
choked does NOT keep the session choked as the spec states: the code aborts
the session with the protocol error string "peer sent unchoke while
unchoked" — a message describing a different event, copy-pasted from the
inner loop's `Unchoke` branch. -/
theorem c1_choke_while_choked :
    chokedStep ⟨.Choke, []⟩ = .protoErr "peer sent unchoke while unchoked" ∧
    chokedWait [⟨.Choke, []⟩] = .err "peer sent unchoke while unchoked" ∧
    chokedStep ⟨.Unchoke, []⟩ = .unchoked :=
  ⟨rfl, rfl, rfl⟩

/-- Claim C2: when a `Choke` arrives while a `Request` for block `b` is
outstanding, the inner receive loop stops with the requeue outcome, and the
task loop sends `b` on the submit (requeue) channel, sets `choked := true`,
and re-enters the outer loop — the finish (completion) channel traffic is
left untouched by this request round. -/
theorem c2_choke_mid_request (pi ps nb b : Nat) (tasks : List Nat)
    (rest : List Message) (eff : Effects) :
    innerLoop pi b (block_size b nb ps) (⟨.Choke, []⟩ :: rest) = .requeued rest ∧
    taskLoop pi ps nb false (b :: tasks) (⟨.Choke, []⟩ :: rest) eff
      = taskLoop pi ps nb true tasks rest ⟨eff.submit ++ [b], eff.finish⟩ := by
  constructor
  · rw [innerLoop]
    rfl
  · rw [taskLoop]
    rfl

/-- Claim C3: for a piece of `P ≥ 1` bytes split into
`nblocks P = ceil(P / BLOCK_MAX)` blocks, every non-final block has size
`BLOCK_MAX`, the final block has size `P mod BLOCK_MAX` when nonzero and
`BLOCK_MAX` otherwise (equivalently `P - (nblocks-1)·BLOCK_MAX`), the
block sizes sum to `P`, no block has size 0, and an exact multiple of
`BLOCK_MAX` gives all blocks size `BLOCK_MAX`. -/
theorem c3_block_sizes (P : Nat) (hP : 1 ≤ P) :
    (∀ b, b < nblocks P - 1 → block_size b (nblocks P) P = BLOCK_MAX) ∧
    block_size (nblocks P - 1) (nblocks P) P
      = (if P % BLOCK_MAX ≠ 0 then P % BLOCK_MAX else BLOCK_MAX) ∧
    block_size (nblocks P - 1) (nblocks P) P = P - (nblocks P - 1) * BLOCK_MAX ∧
    (((Finset.range (nblocks P)).sum fun b => block_size b (nblocks P) P) = P) ∧
    (∀ b, b < nblocks P → block_size b (nblocks P) P ≠ 0) ∧
    (P % BLOCK_MAX = 0 → ∀ b, b < nblocks P → block_size b (nblocks P) P = BLOCK_MAX) := by
  have hn : nblocks P = (P + 16383) / 16384 := by
    simp [nblocks, BLOCK_MAX_eq]
  have h1 : 1 ≤ nblocks P := by rw [hn]; omega
  have hfull : ∀ b, b < nblocks P - 1 → block_size b (nblocks P) P = BLOCK_MAX := by
    intro b hb
    rw [block_size, if_neg (by omega)]
  have hlast : block_size (nblocks P - 1) (nblocks P) P = P - (nblocks P - 1) * 16384 := by
    rw [block_size, if_pos rfl]
    simp only [BLOCK_MAX_eq, hn]
    split <;> omega
  refine ⟨hfull, ?_, by rw [hlast, BLOCK_MAX_eq], ?_, ?_, ?_⟩
  · rw [block_size, if_pos rfl]
    by_cases hmd : P % BLOCK_MAX = 0 <;> simp [hmd]
  · obtain ⟨k, hk⟩ : ∃ k, nblocks P = k + 1 := ⟨nblocks P - 1, by omega⟩
    rw [hk, Finset.sum_range_succ]
    have hconst : ∀ b ∈ Finset.range k, block_size b (k + 1) P = BLOCK_MAX := by
      intro b hb
      rw [← hk]
      exact hfull b (by simp at hb; omega)
    rw [Finset.sum_congr rfl hconst, Finset.sum_const, Finset.card_range, smul_eq_mul]
    have h2 := hlast
    rw [hk, Nat.add_sub_cancel] at h2
    rw [h2, BLOCK_MAX_eq]
    rw [hk] at hn
    omega
  · intro b hb
    by_cases hb1 : b < nblocks P - 1
    · rw [hfull b hb1, BLOCK_MAX_eq]
      omega
    · have hbe : b = nblocks P - 1 := by omega
      rw [hbe, hlast, hn] at *
      omega
  · intro hmd b hb
    by_cases hb1 : b < nblocks P - 1
    · exact hfull b hb1
    · have hbe : b = nblocks P - 1 := by omega
      rw [hbe, block_size, if_pos rfl, hmd, if_pos rfl]

/-- Witness for C3 at the concrete piece size 20000 (2 blocks). -/
theorem c3_block_sizes_witness :
    1 ≤ 20000 ∧
    ((∀ b, b < nblocks 20000 - 1 → block_size b (nblocks 20000) 20000 = BLOCK_MAX) ∧
    block_size (nblocks 20000 - 1) (nblocks 20000) 20000
      = (if 20000 % BLOCK_MAX ≠ 0 then 20000 % BLOCK_MAX else BLOCK_MAX) ∧
    block_size (nblocks 20000 - 1) (nblocks 20000) 20000
      = 20000 - (nblocks 20000 - 1) * BLOCK_MAX ∧
    (((Finset.range (nblocks 20000)).sum fun b => block_size b (nblocks 20000) 20000)
      = 20000) ∧
    (∀ b, b < nblocks 20000 → block_size b (nblocks 20000) 20000 ≠ 0) ∧
    (20000 % BLOCK_MAX = 0 →
      ∀ b, b < nblocks 20000 → block_size b (nblocks 20000) 20000 = BLOCK_MAX)) :=
  ⟨by decide, c3_block_sizes 20000 (by decide)⟩

/-- Claim C4: for a torrent of total length `L ≥ 1` with piece length
`pl ≥ 1`, a non-final piece gets size `pl` and the final piece gets
`L mod pl` when that modulus is nonzero, else `pl`; the computed size is
never 0. -/
theorem c4_piece_size (L pl npieces i : Nat) (hL : 1 ≤ L) (hpl : 1 ≤ pl) :
    (i ≠ npieces - 1 → piece_size i npieces L pl = pl) ∧
    (piece_size (npieces - 1) npieces L pl
      = if L % pl = 0 then pl else L % pl) ∧
    0 < piece_size i npieces L pl := by
  refine ⟨fun h => by rw [piece_size, if_neg h], ?_, ?_⟩
  · rw [piece_size, if_pos rfl]
  · rw [piece_size]
    by_cases hi : i = npieces - 1 <;> simp only [hi, if_pos, if_neg, reduceIte]
    · by_cases hmd : L % pl = 0 <;> simp [hmd]
      · omega
      · exact Nat.pos_of_ne_zero hmd
    · omega

/-- Witness for C4 at total length 40000, piece length 32768, 2 pieces
(final piece size 7232). -/
theorem c4_piece_size_witness :
    1 ≤ 40000 ∧ 1 ≤ 32768 ∧
    ((1 ≠ 2 - 1 → piece_size 1 2 40000 32768 = 32768) ∧
    (piece_size (2 - 1) 2 40000 32768
      = if 40000 % 32768 = 0 then 32768 else 40000 % 32768) ∧
    0 < piece_size 1 2 40000 32768) :=
  ⟨by decide, by decide, c4_piece_size 40000 32768 2 1 (by decide) (by decide)⟩

/-- Claim C5: encoding any message with payload at most `2^17 - 1` bytes
and then decoding the produced buffer yields the original message, and the
decoder consumes exactly the `4 + payload.len() + 1` frame bytes (the
remainder is empty). -/
theorem c5_roundtrip (m : Message) (h : m.payload.length ≤ 2 ^ 17 - 1) :
    ∃ frame, encode m = .ok frame ∧
      frame.length = 4 + m.payload.length + 1 ∧
      decode frame = .msg m [] := by
  obtain ⟨tag, payload⟩ := m
  simp only at h ⊢
  have hMAX : MAX = 131072 := rfl
  refine ⟨toBE32 (payload.length + 1) ++ tag.toByte :: payload, ?_, ?_, ?_⟩
  · rw [encode, if_neg (by simp only [hMAX]; omega)]
  · simp [toBE32]
    omega
  · have hlen : (toBE32 (payload.length + 1) ++ tag.toByte :: payload).length
        = 5 + payload.length := by
      simp [toBE32]
      omega
    rw [decode]
    rw [if_neg (by omega)]
    have htake : (toBE32 (payload.length + 1) ++ tag.toByte :: payload).take 4
        = toBE32 (payload.length + 1) := by
      rw [show (4 : Nat) = (toBE32 (payload.length + 1)).length from rfl]
      exact List.take_left _ _
    rw [htake, fromBE32_toBE32 _ (by omega)]
    rw [if_neg (by omega), if_neg (by omega), if_neg (by rw [hMAX]; omega),
      if_neg (by omega)]
    have hget : (toBE32 (payload.length + 1) ++ tag.toByte :: payload).getD 4 0
        = tag.toByte := by
      simp [toBE32, List.getD]
    rw [hget, tagOfByte_toByte]
    have hdrop5 : (toBE32 (payload.length + 1) ++ tag.toByte :: payload).drop 5
        = payload := by
      simp [toBE32]
    have hdata : (if (toBE32 (payload.length + 1) ++ tag.toByte :: payload).length > 5
        then ((toBE32 (payload.length + 1) ++ tag.toByte :: payload).drop 5).take
          (payload.length + 1 - 1) else []) = payload := by
      rw [hdrop5]
      by_cases hp : payload.length = 0
      · rw [List.length_eq_zero] at hp
        simp [hp]
      · rw [if_pos (by omega), Nat.add_sub_cancel, List.take_length]
    have hrest : (toBE32 (payload.length + 1) ++ tag.toByte :: payload).drop
        (4 + (payload.length + 1)) = [] := by
      apply List.drop_eq_nil_of_le
      omega
    simp only [hdata, hrest]

/-- Witness for C5 on a concrete `Have` message. -/
theorem c5_roundtrip_witness :
    (Message.mk .Have [0, 0, 0, 7]).payload.length ≤ 2 ^ 17 - 1 ∧
    ∃ frame, encode ⟨.Have, [0, 0, 0, 7]⟩ = .ok frame ∧
      frame.length = 4 + (Message.mk .Have [0, 0, 0, 7]).payload.length + 1 ∧
      decode frame = .msg ⟨.Have, [0, 0, 0, 7]⟩ [] :=
  ⟨by decide, c5_roundtrip ⟨.Have, [0, 0, 0, 7]⟩ (by decide)⟩

/-- Counterexample to claim C6 as stated: the buffer `[0, 2, 0, 1]` is a
complete 4-byte length prefix announcing `2^17 + 1 > MAX`, yet the decoder
does not fail there — it returns needs-more-data, because the
`src.len() < 5` check precedes the oversize check. -/
theorem c6_counterexample :
    fromBE32 [0, 2, 0, 1] = 2 ^ 17 + 1 ∧ 2 ^ 17 < MAX + 1 ∧
    decode [0, 2, 0, 1] = .needMore [0, 2, 0, 1] := by
  refine ⟨by norm_num [fromBE32], by norm_num [MAX_eq], ?_⟩
  rw [decode]
  norm_num [fromBE32]

/-- Claim C6 (amended): once at least 5 bytes are buffered, a frame whose
4-byte big-endian length prefix exceeds `MAX = 2^17` is rejected with the
"message too long" error, before the frame body is awaited. -/
theorem c6_too_long (src : List Nat) (h5 : 5 ≤ src.length)
    (hN : MAX < fromBE32 (src.take 4)) :
    decode src = .err "message too long" := by
  rw [decode]
  rw [if_neg (by omega), if_neg (by rw [MAX_eq] at hN; omega), if_neg (by omega),
    if_pos hN]

/-- Witness for the amended C6: a 5-byte buffer announcing `2^17 + 1`. -/
theorem c6_too_long_witness :
    5 ≤ ([0, 2, 0, 1, 9] : List Nat).length ∧
    MAX < fromBE32 (([0, 2, 0, 1, 9] : List Nat).take 4) ∧
    decode [0, 2, 0, 1, 9] = .err "message too long" :=
  ⟨by decide, by decide, c6_too_long [0, 2, 0, 1, 9] (by decide) (by decide)⟩

/-- Claim C7: `has_piece i` reads bit `7 - i mod 8` (MSB-first) of payload
byte `i / 8` and returns `false` for indices past the payload. -/
theorem c7_has_piece (payload : List Nat) (i : Nat) :
    (∀ h : i / 8 < payload.length,
      (Bitfield.from_payload payload).has_piece i
        = ((payload.get ⟨i / 8, h⟩ >>> (7 - i % 8)) &&& 1 != 0)) ∧
    (payload.length ≤ i / 8 →
      (Bitfield.from_payload payload).has_piece i = false) := by
  constructor
  · intro h
    simp only [Bitfield.has_piece, Bitfield.from_payload]
    rw [List.get?_eq_get h]
    rw [rotateRight8_one (i % 8) (Nat.mod_lt _ (by norm_num))]
    exact and_shift_bit _ _
  · intro h
    simp only [Bitfield.has_piece, Bitfield.from_payload]
    rw [List.get?_eq_none.mpr h]

/-- Witness for C7 at piece index 170 in a 22-byte bitfield. -/
theorem c7_has_piece_witness :
    (170 : Nat) / 8 < ([0, 0, 0, 0, 0, 0, 0, 0, 0, 0, 0, 0, 0, 0, 0, 0, 0, 0,
        0, 0, 0, 64] : List Nat).length ∧
    (Bitfield.from_payload [0, 0, 0, 0, 0, 0, 0, 0, 0, 0, 0, 0, 0, 0, 0, 0, 0,
        0, 0, 0, 0, 64]).has_piece 170
      = ((([0, 0, 0, 0, 0, 0, 0, 0, 0, 0, 0, 0, 0, 0, 0, 0, 0, 0, 0, 0, 0,
          64] : List Nat).get ⟨170 / 8, by decide⟩ >>> (7 - 170 % 8)) &&& 1
        != 0) :=
  ⟨by decide, (c7_has_piece _ 170).1 (by decide)⟩

/-- Claim C8: `Peer::new` succeeds exactly when the received handshake has
length byte 19, protocol name "BitTorrent protocol", and the first frame is
a `Bitfield`; on success the session stores the bitfield payload with
`choked = true`; and the peer's `info_hash` is never compared (the result
does not depend on it). -/
theorem c8_peer_new :
    (∀ hs f, (∃ st, Peer.new hs f = .ok st)
        ↔ hs.length = 19 ∧ hs.bittorrent = protocolName ∧ f.tag = .Bitfield) ∧
    (∀ hs f st, Peer.new hs f = .ok st
        → st.bitfield = Bitfield.from_payload f.payload ∧ st.choked = true) ∧
    (∀ hs ih f, Peer.new { hs with info_hash := ih } f = Peer.new hs f) := by
  refine ⟨fun hs f => ?_, fun hs f st hok => ?_, fun hs ih f => ?_⟩
  · rw [Peer.new]
    split
    · simp_all
    · split
      · simp_all
      · split
        · simp_all
        · simp_all
  · rw [Peer.new] at hok
    split at hok
    · cases hok
    · split at hok
      · cases hok
      · split at hok
        · cases hok
        · cases hok
          exact ⟨rfl, rfl⟩
  · rw [Peer.new, Peer.new]

/-- Witness for C8 on a well-formed handshake and bitfield frame. -/
theorem c8_peer_new_witness :
    (PeerState.mk (Bitfield.from_payload [255]) true).bitfield
        = Bitfield.from_payload (Message.mk .Bitfield [255]).payload ∧
    (PeerState.mk (Bitfield.from_payload [255]) true).choked = true :=
  c8_peer_new.2.1 ⟨19, protocolName, [0, 0, 0, 0, 0, 0, 0, 0], [], []⟩
    ⟨.Bitfield, [255]⟩ ⟨Bitfield.from_payload [255], true⟩ rfl

/-- Claim C9: a keep-alive frame (4 zero bytes) produces no message: the
decoder advances past the 4 header bytes and continues on the remaining
buffer, and a buffer of exactly 4 zero bytes yields no message and no
error. -/
theorem c9_keepalive :
    (∀ rest : List Nat, decode (0 :: 0 :: 0 :: 0 :: rest) = decode rest) ∧
    decode [0, 0, 0, 0] = .needMore [] := by
  have h : ∀ rest : List Nat, decode (0 :: 0 :: 0 :: 0 :: rest) = decode rest := by
    intro rest
    rw [decode]
    norm_num [fromBE32]
  refine ⟨h, ?_⟩
  rw [h []]
  rw [decode]
  norm_num

/-- Claim C10: `Piece::ref_from_bytes` returns `none` exactly on inputs
shorter than 8 bytes; otherwise it returns a view whose `index` and
`begin` accessors give the big-endian u32s of bytes 0..4 and 4..8 and
whose `block` is the remaining `len - 8` bytes. -/
theorem c10_ref_from_bytes (data : List Nat) :
    (data.length < 8 → Piece.ref_from_bytes data = none) ∧
    (8 ≤ data.length →
      ∃ p, Piece.ref_from_bytes data = some p ∧
        p.indexVal = fromBE32 (data.take 4) ∧
        p.beginVal = fromBE32 ((data.drop 4).take 4) ∧
        p.block = data.drop 8 ∧
        p.block.length = data.length - 8) := by
  constructor
  · intro h
    rw [Piece.ref_from_bytes, if_pos (by simp only [PIECE_LEAD]; omega)]
  · intro h
    refine ⟨⟨data.take 4, (data.drop 4).take 4, data.drop 8⟩, ?_, rfl, rfl, rfl, ?_⟩
    · rw [Piece.ref_from_bytes, if_neg (by simp [PIECE_LEAD]; omega)]
    · simp

/-- Witness for C10 on an 11-byte `Piece` payload. -/
theorem c10_ref_from_bytes_witness :
    8 ≤ ([0, 0, 0, 1, 0, 0, 64, 0, 7, 7, 7] : List Nat).length ∧
    ∃ p, Piece.ref_from_bytes [0, 0, 0, 1, 0, 0, 64, 0, 7, 7, 7] = some p ∧
      p.indexVal = fromBE32 (([0, 0, 0, 1, 0, 0, 64, 0, 7, 7, 7] : List Nat).take 4) ∧
      p.beginVal = fromBE32 ((([0, 0, 0, 1, 0, 0, 64, 0, 7, 7, 7] : List Nat).drop 4).take 4) ∧
      p.block = ([0, 0, 0, 1, 0, 0, 64, 0, 7, 7, 7] : List Nat).drop 8 ∧
      p.block.length = ([0, 0, 0, 1, 0, 0, 64, 0, 7, 7, 7] : List Nat).length - 8 :=
  ⟨by decide, (c10_ref_from_bytes _).2 (by decide)⟩

end BitTorrent
